import Mathlib

/-!
Shallow embedding of the crawl core of `src/crawl4dev/crawler.py`
(class `UniversalDocsCrawler`): URL scope filtering, content cleaning,
metadata extraction, link discovery, the crawl orchestration loop and the
chunker, together with theorems settling the specification claims.

Modelling conventions:
* Python strings are `String` (sequences of unicode code points, matching
  Python's character-indexed semantics for `len`, slicing and iteration).
* The fixed regex literals of the source are embedded as `RE` values and
  executed by a fuel-indexed backtracking matcher `reM` that reproduces
  Python's leftmost / greedy-preferred match discipline (case-insensitive
  matching is modelled by lowercasing the subject of patterns whose
  literals are ASCII).
* External collaborators (the `re` engine on user-supplied pattern strings,
  `urllib.parse.urljoin`, the page fetcher) are parameters of the model.
* `urllib.parse.urlparse`, `unquote` and other stdlib string helpers are
  modelled directly for the fields and the ASCII behaviour the code uses.
-/

namespace Crawl4Dev

/-- Whitespace characters of Python `str.strip` and of regex `\s`
(ASCII range). -/
def isPyWs (c : Char) : Bool :=
  c = ' ' || c = '\t' || c = '\n' || c = '\r' || c = '\x0b' || c = '\x0c'

/-- ASCII lowercasing, the fragment of Python `str.lower` exercised here. -/
def lowerChar (c : Char) : Char :=
  if 'A' ≤ c && c ≤ 'Z' then Char.ofNat (c.toNat + 32) else c

/-- ASCII uppercasing, the fragment of Python `str.upper` exercised here. -/
def upperChar (c : Char) : Char :=
  if 'a' ≤ c && c ≤ 'z' then Char.ofNat (c.toNat - 32) else c

/-- Python `s.lower()` on an ASCII alphabet. -/
def lowerStr (s : String) : String := String.mk (s.data.map lowerChar)

/-- Drop leading Python whitespace. -/
def stripLeft (cs : List Char) : List Char := cs.dropWhile isPyWs

/-- Drop trailing Python whitespace. -/
def stripRight (cs : List Char) : List Char := (cs.reverse.dropWhile isPyWs).reverse

/-- Python `str.strip()` (on lists of characters). -/
def stripL (cs : List Char) : List Char := stripRight (stripLeft cs)

/-- Python `str.strip()`. -/
def pyStrip (s : String) : String := String.mk (stripL s.data)

/-- Does the first list lead (appear at the start of) the second?
Python `str.startswith`. -/
def leadsWith : List Char → List Char → Bool
  | [], _ => true
  | _ :: _, [] => false
  | p :: ps, c :: cs => p = c && leadsWith ps cs

/-- Python `p in s` substring test, and `str.startswith`/`endswith`
wrappers. -/
def hasSub (pat : List Char) : List Char → Bool
  | [] => leadsWith pat []
  | c :: t => leadsWith pat (c :: t) || hasSub pat t

/-- Python `sub in s` on strings. -/
def strHasSub (pat s : String) : Bool := hasSub pat.data s.data

/-- Python `s.startswith(p)`. -/
def strStarts (p s : String) : Bool := leadsWith p.data s.data

/-- Python `s.endswith(p)`. -/
def strEnds (p s : String) : Bool := leadsWith p.data.reverse s.data.reverse

/-- Number of words of Python `len(s.split())`: maximal nonempty
whitespace-separated runs. -/
def wordCount (s : String) : Nat :=
  (s.data.foldl
    (fun (st : Nat × Bool) c =>
      if isPyWs c then (st.1, false)
      else if st.2 then (st.1, true) else (st.1 + 1, true))
    (0, false)).1

/-- Split on a single separator character (Python `s.split(sep)` for a
one-character separator: `"".split(sep)` is `[""]`, separators at the
ends produce empty pieces). -/
def splitOnChar (sep : Char) : List Char → List (List Char)
  | [] => [[]]
  | c :: t =>
    let r := splitOnChar sep t
    if c = sep then [] :: r
    else
      match r with
      | [] => [[c]]
      | h :: rt => (c :: h) :: rt

/-- Python `s.split(sep)` on strings, single-character separator. -/
def strSplitChar (sep : Char) (s : String) : List String :=
  (splitOnChar sep s.data).map String.mk

/-- Python `sep.join(xs)`. -/
def joinWith (sep : String) : List String → String
  | [] => ""
  | [x] => x
  | x :: y :: xs => x ++ sep ++ joinWith sep (y :: xs)

/-- Python `s.replace(pat, repl)`: left-to-right, non-overlapping
(fuel-indexed; the fuel is always instantiated above the input length and
the pattern is nonempty at every use site). -/
def replaceGo (pat repl : List Char) : Nat → List Char → List Char
  | 0, s => s
  | _ + 1, [] => []
  | fu + 1, c :: t =>
    if leadsWith pat (c :: t) then repl ++ replaceGo pat repl fu ((c :: t).drop pat.length)
    else c :: replaceGo pat repl fu t

/-- Python `s.replace(pat, repl)` on strings. -/
def strReplace (s pat repl : String) : String :=
  String.mk (replaceGo pat.data repl.data (s.data.length + 1) s.data)

/-- Does `pat` occur as a contiguous sublist? (Used to state side
conditions about occurrences that `strReplace` would rewrite.) -/
def occursB (pat : List Char) : List Char → Bool
  | [] => leadsWith pat []
  | c :: t => leadsWith pat (c :: t) || occursB pat t

/-! ### A small backtracking regex engine

The source's fixed regex literals are embedded as `RE` values. The matcher
`reM` is continuation-passing and fuel-indexed: alternation tries the left
branch first, a greedy star tries its body first, a lazy star tries the
empty iteration first, so the first success is Python's preferred match. -/

/-- Regex abstract syntax: characters, character classes, concatenation,
ordered alternation, greedy and lazy star, end-of-subject anchor, and a
negative lookahead on the next character. -/
inductive RE where
  | eps : RE
  | chr : Char → RE
  | cls : (Char → Bool) → RE
  | cat : RE → RE → RE
  | alt : RE → RE → RE
  | starG : RE → RE
  | starL : RE → RE
  | eosRe : RE
  | nla : (Char → Bool) → RE

/-- Structural size of a regex, used to bound the matcher's fuel. -/
def reSize : RE → Nat
  | .eps => 1
  | .chr _ => 1
  | .cls _ => 1
  | .cat a b => reSize a + reSize b + 1
  | .alt a b => reSize a + reSize b + 1
  | .starG a => reSize a + 1
  | .starL a => reSize a + 1
  | .eosRe => 1
  | .nla _ => 1

/-- Backtracking matcher. `reM fu re s k` attempts to match `re` at the
start of `s`, calling the continuation `k` on the remaining suffix; the
first success in preference order is returned. Star iterations must
consume input, as in the source's patterns. -/
def reM : Nat → RE → List Char → (List Char → Option (List Char)) → Option (List Char)
  | 0, _, _, _ => none
  | _ + 1, .eps, s, k => k s
  | _ + 1, .chr c, s, k =>
    match s with
    | [] => none
    | d :: t => if d = c then k t else none
  | _ + 1, .cls p, s, k =>
    match s with
    | [] => none
    | d :: t => if p d then k t else none
  | fu + 1, .cat a b, s, k => reM fu a s (fun s1 => reM fu b s1 k)
  | fu + 1, .alt a b, s, k =>
    match reM fu a s k with
    | some r => some r
    | none => reM fu b s k
  | fu + 1, .starG a, s, k =>
    match reM fu a s (fun s1 => if s1.length < s.length then reM fu (.starG a) s1 k else none) with
    | some r => some r
    | none => k s
  | fu + 1, .starL a, s, k =>
    match k s with
    | some r => some r
    | none => reM fu a s (fun s1 => if s1.length < s.length then reM fu (.starL a) s1 k else none)
  | _ + 1, .eosRe, s, k =>
    match s with
    | [] => k []
    | _ :: _ => none
  | _ + 1, .nla p, s, k =>
    match s with
    | [] => k s
    | d :: _ => if p d then none else k s

/-- Fuel that dominates the matcher's recursion depth for a given subject. -/
def reFuel (re : RE) (s : List Char) : Nat := (reSize re + 2) * (s.length + 2)

/-- Attempt a match anchored at the start of the subject (Python
`re.match`); returns the suffix after the preferred match. -/
def reTryAt (re : RE) (s : List Char) : Option (List Char) := reM (reFuel re s) re s some

/-- Python `re.search`: does the pattern match at any position? -/
def reSearchL (re : RE) : List Char → Bool
  | [] => (reTryAt re []).isSome
  | c :: t => (reTryAt re (c :: t)).isSome || reSearchL re t

/-- Global substitution (Python `re.sub`): leftmost matches, replacement
computed from the matched characters, scanning resumes after each match. -/
def reSubGo (re : RE) (repl : List Char → List Char) : Nat → List Char → List Char
  | 0, s => s
  | _ + 1, [] =>
    match reTryAt re [] with
    | some _ => repl []
    | none => []
  | fu + 1, c :: t =>
    match reTryAt re (c :: t) with
    | some rest =>
      let mlen := (c :: t).length - rest.length
      if mlen = 0 then repl [] ++ c :: reSubGo re repl fu t
      else repl ((c :: t).take mlen) ++ reSubGo re repl fu rest
    | none => c :: reSubGo re repl fu t

/-- Global substitution with sufficient fuel. -/
def reSubAll (re : RE) (repl : List Char → List Char) (s : List Char) : List Char :=
  reSubGo re repl (s.length + 1) s

/-- Literal regex from a character list. -/
def reLit : List Char → RE
  | [] => .eps
  | c :: t => .cat (.chr c) (reLit t)

/-- Literal regex from a string. -/
def reStr (s : String) : RE := reLit s.data

/-- Regex `.` (any character except newline, no DOTALL flag in the source). -/
def reAnyNotNL : RE := .cls (fun c => c ≠ '\n')

/-- Regex `\s` (ASCII model). -/
def reWsCls : RE := .cls isPyWs

/-- Regex `x+`. -/
def rePlus (a : RE) : RE := .cat a (.starG a)

/-- Greedy `x?`. -/
def reOpt (a : RE) : RE := .alt a .eps

/-- First-match-wins alternation of a list of regexes. -/
def reAltList : List RE → RE
  | [] => .cls (fun _ => false)
  | [r] => r
  | r :: rs => .alt r (reAltList rs)

/-! ### urllib.parse fragments

`urlparse` and `unquote` are Python stdlib collaborators; the definitions
below model exactly the fields and the ASCII behaviour the crawler uses
(scheme, netloc, path; bytewise percent-decoding). -/

/-- Characters allowed after the first one in a URL scheme. -/
def isSchemeChar (c : Char) : Bool := c.isAlpha || c.isDigit || c = '+' || c = '-' || c = '.'

/-- Split at the first `:` when the part before it is a valid scheme.
Returns (lowercased scheme, remainder); the scheme is empty if absent. -/
def takeUntilColon : List Char → Option (List Char × List Char)
  | [] => none
  | ':' :: t => some ([], t)
  | c :: t =>
    match takeUntilColon t with
    | some (a, b) => some (c :: a, b)
    | none => none

/-- Scheme detection of `urllib.parse.urlsplit`. -/
def splitScheme (cs : List Char) : List Char × List Char :=
  match takeUntilColon cs with
  | some (pre, post) =>
    match pre with
    | [] => ([], cs)
    | c :: _ =>
      if c.isAlpha && pre.all isSchemeChar then (pre.map lowerChar, post) else ([], cs)
  | none => ([], cs)

/-- Netloc detection of `urllib.parse.urlsplit`: present only after `//`,
delimited by `/`, `?` or `#`. -/
def splitNetloc (cs : List Char) : List Char × List Char :=
  match cs with
  | '/' :: '/' :: rest =>
    (rest.takeWhile (fun c => c ≠ '/' && c ≠ '?' && c ≠ '#'),
     rest.dropWhile (fun c => c ≠ '/' && c ≠ '?' && c ≠ '#'))
  | _ => ([], cs)

/-- Keep everything before the first occurrence of `stop`. -/
def cutAt (stop : Char) (cs : List Char) : List Char := cs.takeWhile (fun c => c ≠ stop)

/-- The components of `urllib.parse.urlparse` that the crawler reads. -/
structure ParsedUrl where
  scheme : String
  netloc : String
  path : String
deriving DecidableEq

/-- Model of `urllib.parse.urlparse` for the scheme / netloc / path fields
(parameter splitting on `;`, queries and fragments are cut off the path as
in `urlsplit`). -/
def pyUrlparse (url : String) : ParsedUrl :=
  let sr := splitScheme url.data
  let nr := splitNetloc sr.2
  ⟨String.mk sr.1, String.mk nr.1, String.mk (cutAt '?' (cutAt '#' nr.2))⟩

/-- Hexadecimal digit value. -/
def hexVal (c : Char) : Option Nat :=
  if '0' ≤ c && c ≤ '9' then some (c.toNat - 48)
  else if 'a' ≤ c && c ≤ 'f' then some (c.toNat - 87)
  else if 'A' ≤ c && c ≤ 'F' then some (c.toNat - 55)
  else none

/-- Percent-decoding of `urllib.parse.unquote`, bytewise (each `%XX`
becomes the character of that code; multi-byte UTF-8 sequences are not
recombined, which is irrelevant to the ASCII markers the filter checks). -/
def unquoteGo : Nat → List Char → List Char
  | 0, s => s
  | _ + 1, [] => []
  | fu + 1, '%' :: a :: b :: t =>
    (match hexVal a, hexVal b with
     | some x, some y => Char.ofNat (16 * x + y) :: unquoteGo fu t
     | _, _ => '%' :: unquoteGo fu (a :: b :: t))
  | fu + 1, c :: t => c :: unquoteGo fu t

/-- Python `urllib.parse.unquote` (ASCII model). -/
def pyUnquote (s : String) : String := String.mk (unquoteGo (s.data.length + 1) s.data)

/-! ### URL Scope Filter (`is_valid_url`, crawler.py lines 147-255) -/

/-- The `file_extensions` literal of `is_valid_url`. -/
def fileExtensions : List String :=
  [".png", ".jpg", ".jpeg", ".gif", ".svg", ".webp", ".ico", ".bmp",
   ".pdf", ".doc", ".docx", ".xls", ".xlsx", ".ppt", ".pptx",
   ".zip", ".tar", ".gz", ".rar", ".7z",
   ".mp4", ".mp3", ".avi", ".mov", ".wav",
   ".json", ".xml", ".csv", ".txt", ".log",
   ".woff", ".woff2", ".ttf", ".eot",
   ".css", ".js", ".map"]

/-- Regex `\$\{.*\}` of `invalid_patterns`. -/
def dollarTemplateRe : RE :=
  .cat (.chr '$') (.cat (.chr '{') (.cat (.starG reAnyNotNL) (.chr '}')))

/-- Regex `\{\{.*\}\}` of `invalid_patterns`. -/
def braceTemplateRe : RE :=
  .cat (.chr '{') (.cat (.chr '{') (.cat (.starG reAnyNotNL) (.cat (.chr '}') (.chr '}'))))

/-- Regex `<[^>]*>` of `invalid_patterns`. -/
def angleRe : RE := .cat (.chr '<') (.cat (.starG (.cls (fun c => c ≠ '>'))) (.chr '>'))

/-- Regex `\*` of `invalid_patterns`. -/
def starRe : RE := .chr '*'

/-- Regex `undefined` of `invalid_patterns`. -/
def undefinedRe : RE := reStr "undefined"

/-- Regex `null` of `invalid_patterns`. -/
def nullRe : RE := reStr "null"

/-- The `invalid_patterns` list of `is_valid_url`, in source order. -/
def invalidPatternsList : List RE :=
  [dollarTemplateRe, braceTemplateRe, angleRe, starRe, undefinedRe, nullRe]

/-- The `url_patterns` dictionary: include and exclude regex source
strings (empty list models an absent/falsy entry, as the code tests). -/
structure UrlPatterns where
  includePats : List String
  excludePats : List String
deriving DecidableEq

/-- `UniversalDocsCrawler.is_valid_url`. `reS pat subject` abstracts
`re.search(pat, subject, re.IGNORECASE) is not None` for the user-supplied
include/exclude pattern strings (an external collaborator); the fixed
literals of `invalid_patterns` run on the engine above against the
lowercased decoded URL. -/
def is_valid_url (reS : String → String → Bool) (domain : String)
    (pats : UrlPatterns) (url : String) : Bool :=
  if url = "" then false
  else
    let parsed := pyUrlparse url
    if parsed.scheme = "" || parsed.netloc = "" then false
    else if fileExtensions.any (fun ext => strEnds ext (lowerStr url)) then false
    else
      let decoded := pyUnquote url
      if invalidPatternsList.any (fun re => reSearchL re (lowerStr decoded).data) then false
      else if domain = "" then true
      else if ¬ strStarts domain url then false
      else if pats.includePats ≠ [] && ¬ pats.includePats.any (fun p => reS p url) then false
      else ¬ (pats.excludePats ≠ [] && pats.excludePats.any (fun p => reS p url))

/-! ### Content Cleaner (`clean_markdown_for_llm`, crawler.py lines 257-339)

The nine `ui_patterns` are matched with `re.match(..., re.IGNORECASE)`
against the stripped line; here the subject is lowercased and the
literals are written in lowercase. -/

/-- Pattern `^(Skip to|Navigation|Menu|Search|Toggle|Cookie|Privacy|Accept|Reject).*$`. -/
def uiRe1 : RE :=
  .cat (reAltList (["skip to", "navigation", "menu", "search", "toggle",
                    "cookie", "privacy", "accept", "reject"].map reStr))
    (.cat (.starG reAnyNotNL) .eosRe)

/-- Pattern `^(Home|Docs|Documentation|Download|GitHub|Twitter|Facebook|LinkedIn)$`. -/
def uiRe2 : RE :=
  .cat (reAltList (["home", "docs", "documentation", "download", "github",
                    "twitter", "facebook", "linkedin"].map reStr)) .eosRe

/-- Pattern `^\s*\*\s*(Home|Docs|Download|Back to top|Table of contents).*$`. -/
def uiRe3 : RE :=
  .cat (.starG reWsCls) (.cat (.chr '*') (.cat (.starG reWsCls)
    (.cat (reAltList (["home", "docs", "download", "back to top",
                       "table of contents"].map reStr))
      (.cat (.starG reAnyNotNL) .eosRe))))

/-- Pattern `^\s*\[.*\]\(#.*\)\s*$` (anchor-only link lines). -/
def uiRe4 : RE :=
  .cat (.starG reWsCls) (.cat (.chr '[') (.cat (.starG reAnyNotNL)
    (.cat (reStr "](#") (.cat (.starG reAnyNotNL)
      (.cat (.chr ')') (.cat (.starG reWsCls) .eosRe))))))

/-- Pattern `^(Edit this page|Edit on GitHub|Improve this doc).*$`. -/
def uiRe5 : RE :=
  .cat (reAltList (["edit this page", "edit on github", "improve this doc"].map reStr))
    (.cat (.starG reAnyNotNL) .eosRe)

/-- Pattern `^(Last updated|Last modified|Published|Created).*$`. -/
def uiRe6 : RE :=
  .cat (reAltList (["last updated", "last modified", "published", "created"].map reStr))
    (.cat (.starG reAnyNotNL) .eosRe)

/-- Pattern `^(Share|Print|Copy link|Permalink).*$`. -/
def uiRe7 : RE :=
  .cat (reAltList (["share", "print", "copy link", "permalink"].map reStr))
    (.cat (.starG reAnyNotNL) .eosRe)

/-- Pattern `^\s*[\*\-\+]\s*$` (empty list items). -/
def uiRe8 : RE :=
  .cat (.starG reWsCls) (.cat (.cls (fun c => c = '*' || c = '-' || c = '+'))
    (.cat (.starG reWsCls) .eosRe))

/-- Pattern `^(Previous|Next|←|→|\<|\>)(\s|$)` (navigation arrows). -/
def uiRe9 : RE :=
  .cat (reAltList (["previous", "next", "←", "→", "<", ">"].map reStr))
    (.alt (.cls isPyWs) .eosRe)

/-- The `ui_patterns` list in source order. -/
def uiPatterns : List RE := [uiRe1, uiRe2, uiRe3, uiRe4, uiRe5, uiRe6, uiRe7, uiRe8, uiRe9]

/-- `any(re.match(pattern, line, re.IGNORECASE) for pattern in ui_patterns)`. -/
def uiHit (line : String) : Bool :=
  uiPatterns.any (fun re => (reTryAt re (lowerStr line).data).isSome)

/-- The short tokens a line below 3 characters may still be. -/
def shortKeepTokens : List String := ["#", "##", "###", "####", "---", "***"]

/-- Sub `^\s{8,}` → four spaces: the greedy match replaces the whole
leading whitespace run when it has at least 8 characters. -/
def fixIndent (cs : List Char) : List Char :=
  if 8 ≤ (cs.takeWhile isPyWs).length then
    ' ' :: ' ' :: ' ' :: ' ' :: cs.dropWhile isPyWs
  else cs

/-- Regex `\[([^\]]+)\]\(javascript:.*?\)`. -/
def jsLinkRe : RE :=
  .cat (.chr '[') (.cat (rePlus (.cls (fun c => c ≠ ']')))
    (.cat (reStr "](javascript:") (.cat (.starL reAnyNotNL) (.chr ')'))))

/-- Regex `\[([^\]]+)\]\(#[^)]*\)`. -/
def anchorLinkRe : RE :=
  .cat (.chr '[') (.cat (rePlus (.cls (fun c => c ≠ ']')))
    (.cat (reStr "](#") (.cat (.starG (.cls (fun c => c ≠ ')'))) (.chr ')'))))

/-- Replacement `\1` for the link rewrites: the first capture group is the
maximal `]`-free run after the opening bracket. -/
def linkTextOf (m : List Char) : List Char := (m.drop 1).takeWhile (fun c => c ≠ ']')

/-- Per-line processing of the cleaner's step 2: `none` drops the line,
`some` keeps the rewritten line. -/
def cleanLine (original : String) : Option String :=
  let line := pyStrip original
  if line = "" then some ""
  else if uiHit line then none
  else if line.length < 3 ∧ ¬ shortKeepTokens.contains line then none
  else
    some (String.mk (reSubAll anchorLinkRe linkTextOf
      (reSubAll jsLinkRe linkTextOf (fixIndent original.data))))

/-- Regex `\n\s*\n\s*\n+` (excessive blank runs). -/
def collapseBlankRe : RE :=
  .cat (.chr '\n') (.cat (.starG reWsCls)
    (.cat (.chr '\n') (.cat (.starG reWsCls) (rePlus (.chr '\n')))))

/-- Sub `^#{5,}` → `####` with MULTILINE: applied at each line start, the
greedy match covers the whole leading `#` run when it has 5 or more. -/
def normHeaderLine (cs : List Char) : List Char :=
  if 5 ≤ (cs.takeWhile (fun c => c = '#')).length then
    '#' :: '#' :: '#' :: '#' :: cs.dropWhile (fun c => c = '#')
  else cs

/-- Header-depth normalisation over all lines. -/
def normHeaders (s : String) : String :=
  joinWith "\n" ((strSplitChar '\n' s).map (fun l => String.mk (normHeaderLine l.data)))

/-- Regex ```` ```\s*\n\s*``` ```` (empty fenced code blocks). -/
def emptyCodeRe : RE :=
  .cat (reStr "```") (.cat (.starG reWsCls)
    (.cat (.chr '\n') (.cat (.starG reWsCls) (reStr "```"))))

/-- Regex `\|\s*\|\s*\|\s*\n` (empty table rows). -/
def emptyTableRe : RE :=
  .cat (.chr '|') (.cat (.starG reWsCls) (.cat (.chr '|') (.cat (.starG reWsCls)
    (.cat (.chr '|') (.cat (.starG reWsCls) (.chr '\n'))))))

/-- One `\n---+\s*\n` unit of the repeated-horizontal-rule pattern. -/
def hruleUnit : RE :=
  .cat (.chr '\n') (.cat (reStr "---") (.cat (.starG (.chr '-'))
    (.cat (.starG reWsCls) (.chr '\n'))))

/-- Regex `(\n---+\s*\n){2,}`. -/
def hruleRe : RE := .cat hruleUnit (.cat hruleUnit (.starG hruleUnit))

/-- Greedy `#{1,4}`. -/
def rep1to4Hash : RE :=
  .cat (.chr '#') (reOpt (.cat (.chr '#') (reOpt (.cat (.chr '#') (reOpt (.chr '#'))))))

/-- Regex `\n(#{1,4}\s+[^\n]+)\n(?!\n)`; the replacement `\n\1\n\n` equals
the matched text followed by one more newline. -/
def headSpaceRe : RE :=
  .cat (.chr '\n') (.cat rep1to4Hash (.cat (rePlus reWsCls)
    (.cat (rePlus reAnyNotNL) (.cat (.chr '\n') (.nla (fun c => c = '\n'))))))

/-- Regex `` \n(```[^`]*```)\n(?!\n) ``; the replacement `\n\1\n\n` equals
the matched text followed by one more newline. -/
def codeSpaceRe : RE :=
  .cat (.chr '\n') (.cat (reStr "```") (.cat (.starG (.cls (fun c => c ≠ '`')))
    (.cat (reStr "```") (.cat (.chr '\n') (.nla (fun c => c = '\n'))))))

/-- `UniversalDocsCrawler.clean_markdown_for_llm`. The `url` parameter is
unused, as in the source. -/
def clean_markdown_for_llm (markdown url : String) : String :=
  if markdown = "" then ""
  else
    let cleaned := joinWith "\n" ((strSplitChar '\n' markdown).filterMap cleanLine)
    let c1 := String.mk (reSubAll collapseBlankRe (fun _ => "\n\n".data) cleaned.data)
    let c2 := normHeaders c1
    let c3 := String.mk (reSubAll emptyCodeRe (fun _ => []) c2.data)
    let c4 := String.mk (reSubAll emptyTableRe (fun _ => []) c3.data)
    let c5 := String.mk (reSubAll hruleRe (fun _ => "\n---\n".data) c4.data)
    let c6 := String.mk (reSubAll headSpaceRe (fun m => m ++ ['\n']) c5.data)
    let c7 := String.mk (reSubAll codeSpaceRe (fun m => m ++ ['\n']) c6.data)
    pyStrip c7

/-! ### Metadata Extractor (`extract_title_and_description`, crawler.py
lines 341-384) -/

/-- The stripped nonempty lines the extractor scans:
`[line.strip() for line in markdown.split("\n") if line.strip()]`. -/
def stripLines (markdown : String) : List String :=
  ((strSplitChar '\n' markdown).map pyStrip).filter (fun l => l ≠ "")

/-- The title-finding loop: the first `# ` line wins outright; a `## `
line wins when no title has been set yet (and the loop then stops). -/
def findTitleGo : String → List String → String
  | t, [] => t
  | t, l :: ls =>
    if strStarts "# " l then pyStrip (String.mk (l.data.drop 2))
    else if strStarts "## " l ∧ t = "" then pyStrip (String.mk (l.data.drop 3))
    else findTitleGo t ls

/-- Python `s.strip("/")`. -/
def pyStripSlashes (s : String) : String :=
  String.mk (((s.data.dropWhile (fun c => c = '/')).reverse.dropWhile (fun c => c = '/')).reverse)

/-- `replace("-", " ").replace("_", " ")`. -/
def dashUnderToSpace (s : String) : String :=
  String.mk (s.data.map (fun c => if c = '-' || c = '_' then ' ' else c))

/-- Python `str.title()` (ASCII model): a letter is uppercased after a
non-letter and lowercased after a letter. -/
def pyTitleGo : Bool → List Char → List Char
  | _, [] => []
  | prevAlpha, c :: t =>
    if c.isAlpha then
      (if prevAlpha then lowerChar c else upperChar c) :: pyTitleGo true t
    else c :: pyTitleGo false t

/-- Python `str.title()`. -/
def pyTitleCase (s : String) : String := String.mk (pyTitleGo false s.data)

/-- The URL fallback of the title extractor: last path segment after
stripping slashes, hyphens/underscores to spaces, title-cased; the
literal `Documentation` when absent. -/
def urlTitleFromPath (url : String) : String :=
  let parts := strSplitChar '/' (pyStripSlashes (pyUrlparse url).path)
  match parts.getLast? with
  | some last => if last ≠ "" then pyTitleCase (dashUnderToSpace last) else "Documentation"
  | none => "Documentation"

/-- Regex `\[([^\]]+)\]\([^)]+\)` (markdown links, for the description). -/
def descLinkRe : RE :=
  .cat (.chr '[') (.cat (rePlus (.cls (fun c => c ≠ ']')))
    (.cat (reStr "](") (.cat (rePlus (.cls (fun c => c ≠ ')'))) (.chr ')'))))

/-- Sub `[*_`]` → empty (inline formatting removal). -/
def removeFmt (cs : List Char) : List Char :=
  cs.filter (fun c => ¬ (c = '*' || c = '_' || c = '`'))

/-- The description-finding loop with its fenced-code-block toggle. -/
def findDescGo : Bool → List String → String
  | _, [] => ""
  | inCode, l :: ls =>
    if strStarts "```" l then findDescGo (!inCode) ls
    else if inCode = false ∧ strStarts "#" l = false ∧ 50 < l.length then
      let d := String.mk (removeFmt (reSubAll descLinkRe linkTextOf l.data))
      if 30 < d.length then
        (if 200 < d.length then String.mk (d.data.take 200) ++ "..." else d)
      else findDescGo inCode ls
    else findDescGo inCode ls

/-- `UniversalDocsCrawler.extract_title_and_description`. -/
def extract_title_and_description (markdown url : String) : String × String :=
  let lines := stripLines markdown
  let t0 := findTitleGo "" lines
  (if t0 = "" then urlTitleFromPath url else t0, findDescGo false lines)

/-! ### Link Discoverer (`extract_links_from_content`, crawler.py lines
386-416) -/

/-- One attempt of `findall(r"\[([^\]]+)\]\(([^)]+)\)")` anchored here:
returns (link text, link target, rest after the match). -/
def mdLinkAt : List Char → Option (List Char × List Char × List Char)
  | '[' :: rest =>
    let txt := rest.takeWhile (fun c => c ≠ ']')
    if txt = [] then none
    else
      match rest.dropWhile (fun c => c ≠ ']') with
      | ']' :: '(' :: rest2 =>
        let tgt := rest2.takeWhile (fun c => c ≠ ')')
        if tgt = [] then none
        else
          match rest2.dropWhile (fun c => c ≠ ')') with
          | ')' :: rest3 => some (txt, tgt, rest3)
          | _ => none
      | _ => none
  | _ => none

/-- `re.findall(r"\[([^\]]+)\]\(([^)]+)\)", markdown)`: leftmost,
non-overlapping. -/
def findMdLinks : Nat → List Char → List (List Char × List Char)
  | 0, _ => []
  | _ + 1, [] => []
  | fu + 1, c :: t =>
    match mdLinkAt (c :: t) with
    | some (txt, tgt, rest) => (txt, tgt) :: findMdLinks fu rest
    | none => findMdLinks fu t

/-- Is the character one of the two quote delimiters of the href pattern? -/
def isQuote (c : Char) : Bool := c = '"' || c = '\''

/-- One attempt of `findall(r#"href=["']([^"']+)["']"#, IGNORECASE)`
anchored here: returns (attribute value, rest after the match). -/
def hrefAt : List Char → Option (List Char × List Char)
  | c1 :: c2 :: c3 :: c4 :: c5 :: rest =>
    if lowerChar c1 = 'h' && lowerChar c2 = 'r' && lowerChar c3 = 'e' &&
        lowerChar c4 = 'f' && c5 = '=' then
      match rest with
      | q :: rest2 =>
        if isQuote q then
          let tgt := rest2.takeWhile (fun c => ¬ isQuote c)
          if tgt = [] then none
          else
            match rest2.dropWhile (fun c => ¬ isQuote c) with
            | _ :: rest3 => some (tgt, rest3)
            | [] => none
        else none
      | [] => none
    else none
  | _ => none

/-- `re.findall` for the href pattern: leftmost, non-overlapping. -/
def findHrefs : Nat → List Char → List (List Char)
  | 0, _ => []
  | _ + 1, [] => []
  | fu + 1, c :: t =>
    match hrefAt (c :: t) with
    | some (tgt, rest) => tgt :: findHrefs fu rest
    | none => findHrefs fu t

/-- Resolution and admission of one candidate target: skipped when it
starts with one of the absolute-form markers, resolved by the external
`urljoin` (`none` models a raised exception, which the source catches and
skips), then added to the set only when the Scope Filter admits it. -/
def addLink (reS : String → String → Bool) (domain : String) (pats : UrlPatterns)
    (ujoin : String → String → Option String) (base : String)
    (skips : List String) (acc : List String) (target : String) : List String :=
  if skips.any (fun p => strStarts p target) then acc
  else
    match ujoin base target with
    | some full => if is_valid_url reS domain pats full then acc.insert full else acc
    | none => acc

/-- `UniversalDocsCrawler.extract_links_from_content`: markdown links
first, then href attributes; the result models the Python `set` as a
duplicate-free list. -/
def extract_links_from_content (reS : String → String → Bool) (domain : String)
    (pats : UrlPatterns) (ujoin : String → String → Option String)
    (html markdown base : String) : List String :=
  let mdTargets := findMdLinks (markdown.data.length + 1) markdown.data
  let acc1 := mdTargets.foldl
    (fun acc tu => addLink reS domain pats ujoin base ["http", "//", "mailto:", "tel:"] acc
      (String.mk tu.2)) []
  let hrefs := findHrefs (html.data.length + 1) html.data
  hrefs.foldl
    (fun acc u => addLink reS domain pats ujoin base
      ["http", "//", "mailto:", "tel:", "javascript:"] acc (String.mk u)) acc1

/-! ### Per-page pipeline (`crawl_page`, crawler.py lines 418-520) -/

/-- The configuration options that influence the modelled logic
(the remaining options are passed through to the external fetcher). -/
structure CrawlConfig where
  minWordCount : Nat := 20
  minContentLength : Nat := 100
deriving DecidableEq

/-- The fetcher's answer (`result` of `crawler.arun`): success flag,
extracted markdown, raw html, and optional status code (the source reads
it with `getattr(result, "status_code", 200)`). -/
structure FetchResult where
  success : Bool
  markdown : String
  html : String
  statusCode : Option Nat
deriving DecidableEq

/-- One successful crawl outcome (`page_data` dictionary). -/
structure PageData where
  url : String
  title : String
  description : String
  path : String
  markdown : String
  rawHtml : String
  contentLength : Nat
  wordCount : Nat
  crawledAt : String
  statusCode : Nat
deriving DecidableEq

/-- Python: `"/".join(p for p in parsed.path.strip("/").split("/") if p)
or "home"` — the structured path of a page. -/
def structuredPath (url : String) : String :=
  let parts := (strSplitChar '/' (pyStripSlashes (pyUrlparse url).path)).filter (fun p => p ≠ "")
  if parts = [] then "home" else joinWith "/" parts

/-- Result of one `crawl_page` call: the optional page, the discovered
links, the updated failed-URL list, and (instrumentation for the frontier
invariant) whether a fetch was attempted at all. -/
structure PageOutcome where
  page : Option PageData
  links : List String
  failed : List String
  fetched : Bool
deriving DecidableEq

/-- `UniversalDocsCrawler.crawl_page`. `fetch url = none` models the
fetch raising an exception (caught by the source, which then appends the
URL to the failed list); `now` stands for `datetime.now().isoformat()`.
Note that the insufficient-content branch returns without touching the
failed list, mirroring lines 499-502 and 520 of the source. -/
def crawl_page (reS : String → String → Bool) (domain : String) (pats : UrlPatterns)
    (ujoin : String → String → Option String) (fetch : String → Option FetchResult)
    (cfg : CrawlConfig) (now : String) (failed : List String) (url : String) :
    PageOutcome :=
  if ¬ is_valid_url reS domain pats url then ⟨none, [], failed, false⟩
  else
    match fetch url with
    | none => ⟨none, [], failed ++ [url], true⟩
    | some result =>
      if result.success = true ∧ result.markdown ≠ "" then
        let cleaned := clean_markdown_for_llm result.markdown url
        if cfg.minContentLength < cleaned.length then
          let td := extract_title_and_description cleaned url
          let page : PageData :=
            ⟨url, td.1, td.2, structuredPath url, cleaned, result.html,
             cleaned.length, wordCount cleaned, now, result.statusCode.getD 200⟩
          ⟨some page,
           extract_links_from_content reS domain pats ujoin result.html result.markdown url,
           failed, true⟩
        else ⟨none, [], failed, true⟩
      else ⟨none, [], failed ++ [url], true⟩

/-! ### Crawler instance state, setup and auto-detection (crawler.py
lines 71-145) -/

/-- The mutable fields of a `UniversalDocsCrawler` instance that the
modelled methods read and write. -/
structure CrawlerState where
  baseUrl : String
  domain : String
  pats : UrlPatterns
  crawled : List String
  results : List PageData
  failed : List String
deriving DecidableEq

/-- A freshly constructed crawler (`__init__`): empty base URL/domain,
empty visited/results/failed, patterns from the configuration. -/
def mkCrawler (pats : UrlPatterns) : CrawlerState := ⟨"", "", pats, [], [], []⟩

/-- Python `s.rstrip("/")`. -/
def pyRstripSlash (s : String) : String :=
  String.mk ((s.data.reverse.dropWhile (fun c => c = '/')).reverse)

/-- The characters `re.escape` prefixes with a backslash (Python ≥ 3.7). -/
def reSpecials : List Char :=
  ['(', ')', '[', ']', '{', '}', '?', '*', '+', '-', '|', '^', '$', '\\',
   '.', '&', '~', '#', ' ', '\t', '\n', '\r', '\x0b', '\x0c']

/-- Python `re.escape`. -/
def reEscape (s : String) : String :=
  String.mk ((s.data.map (fun c => if reSpecials.contains c then ['\\', c] else [c])).flatten)

/-- The documentation indicator keywords of `auto_detect_patterns`. -/
def docIndicators : List String :=
  ["docs", "documentation", "guide", "manual", "help", "wiki", "api"]

/-- The default exclude pattern strings of `auto_detect_patterns`
(verbatim regex sources; they are only ever passed to the abstract
pattern-search collaborator). -/
def defaultExcludePatterns : List String :=
  [".*/login.*", ".*/register.*", ".*/signup.*", ".*/signin.*",
   ".*/cart.*", ".*/checkout.*", ".*/account.*", ".*/profile.*",
   ".*/admin.*", ".*/dashboard.*", ".*/settings.*",
   ".*\\.(pdf|zip|tar|gz|exe|dmg|pkg|png|jpg|jpeg|gif|svg|webp|ico|bmp)$",
   ".*/(_images|images|img|assets|static|media|files|downloads)/.*",
   ".*#.*", ".*\\?.*page=.*", ".*/search.*", ".*/tag.*", ".*/category.*",
   ".*\\$\\\x7b.*\\\x7d.*", ".*\\\x7b\\\x7b.*\\\x7d\\\x7d.*",
   ".*\\%7B.*\\%7D.*", ".*<.*>.*", ".*/\\*.*"]

/-- `UniversalDocsCrawler.auto_detect_patterns`, as a function of the
base URL and the current patterns. -/
def auto_detect_patterns (baseUrl : String) (pats : UrlPatterns) : UrlPatterns :=
  let path := lowerStr (pyUrlparse baseUrl).path
  let inc :=
    if pats.includePats ≠ [] then pats.includePats
    else
      let ps := ((docIndicators.filter (fun ind => strHasSub ind path)).map
        (fun ind => [".*" ++ ind ++ ".*", ".*/" ++ ind ++ "/.*"])).flatten
      if ps = [] then
        let basePath := pyRstripSlash (pyUrlparse baseUrl).path
        if basePath ≠ "" then [reEscape basePath ++ "/.*"] else []
      else ps
  let exc := if pats.excludePats ≠ [] then pats.excludePats else defaultExcludePatterns
  ⟨inc, exc⟩

/-- `UniversalDocsCrawler.setup_for_website`: strips the trailing slashes
of the base URL, derives the domain as scheme://netloc of the original
argument, and runs pattern auto-detection. It touches no other field. -/
def setup_for_website (st : CrawlerState) (base : String) : CrawlerState :=
  let baseUrl := pyRstripSlash base
  let parsed := pyUrlparse base
  { st with
    baseUrl := baseUrl
    domain := parsed.scheme ++ "://" ++ parsed.netloc
    pats := auto_detect_patterns baseUrl st.pats }

/-- The state established by `deep_crawl` before its while loop: the
crawler after `setup_for_website`, and the frontier `{start_url}`.
No clearing of visited/results/failed happens here (they are initialised
by the constructor only). -/
def deep_crawl_init (st : CrawlerState) (startUrl : String) :
    CrawlerState × List String :=
  (setup_for_website st startUrl, [startUrl])

/-! ### The crawl loop (`deep_crawl`, crawler.py lines 522-590)

The Python frontier is a `set` with nondeterministic `pop`; it is
modelled as a duplicate-free list together with a `choose` selector that
picks the element to pop, so the theorems quantify over every pop order.
The loop is fuel-indexed: the theorems hold for every fuel, hence for the
fuel at which the loop's condition first fails. -/

/-- The loop state of `deep_crawl`: the frontier (`urls_to_crawl`), the
instance fields it mutates, and two instrumentation logs — the URLs
passed to the fetcher and the URLs popped from the frontier, in order. -/
structure LoopState where
  frontier : List String
  crawled : List String
  results : List PageData
  failed : List String
  fetchLog : List String
  popLog : List String
deriving DecidableEq

/-- The while loop of `deep_crawl`: pop a URL, skip it when already
visited, otherwise mark it visited, run `crawl_page`, append the page
result, and enqueue up to 10 of the discovered not-yet-visited valid
links while the budget allows. -/
def deep_crawl_loop (reS : String → String → Bool) (domain : String)
    (pats : UrlPatterns) (ujoin : String → String → Option String)
    (fetch : String → Option FetchResult) (cfg : CrawlConfig) (now : String)
    (choose : List String → String) (maxPages : Nat) :
    Nat → LoopState → LoopState
  | 0, s => s
  | fu + 1, s =>
    if s.frontier = [] ∨ ¬ s.results.length < maxPages then s
    else
      let u := choose s.frontier
      let fr1 := s.frontier.erase u
      if u ∈ s.crawled then
        deep_crawl_loop reS domain pats ujoin fetch cfg now choose maxPages fu
          { s with frontier := fr1, popLog := s.popLog ++ [u] }
      else
        let crawled1 := s.crawled.insert u
        let out := crawl_page reS domain pats ujoin fetch cfg now s.failed u
        let results1 :=
          match out.page with
          | some p => s.results ++ [p]
          | none => s.results
        let newLinks :=
          ((out.links.filter (fun l => l ∉ crawled1)).filter
            (fun l => is_valid_url reS domain pats l)).take 10
        let fr2 := newLinks.foldl
          (fun fr l => if results1.length < maxPages then fr.insert l else fr) fr1
        deep_crawl_loop reS domain pats ujoin fetch cfg now choose maxPages fu
          ⟨fr2, crawled1, results1, out.failed,
           s.fetchLog ++ (if out.fetched then [u] else []), s.popLog ++ [u]⟩

/-- `UniversalDocsCrawler.deep_crawl`: setup, seed the frontier with the
start URL, run the loop on the instance's current visited/results/failed
state. Returns the final loop state and the configured crawler. -/
def deep_crawl (reS : String → String → Bool)
    (ujoin : String → String → Option String) (fetch : String → Option FetchResult)
    (cfg : CrawlConfig) (now : String) (choose : List String → String)
    (st : CrawlerState) (startUrl : String) (maxPages : Nat) (fuel : Nat) :
    LoopState × CrawlerState :=
  let st1 := setup_for_website st startUrl
  (deep_crawl_loop reS st1.domain st1.pats ujoin fetch cfg now choose maxPages fuel
    ⟨[startUrl], st.crawled, st.results, st.failed, [], []⟩, st1)

/-! ### Output Assembler — Chunker (`create_chunks` and
`_create_chunk_info`, crawler.py lines 1006-1239) -/

/-- `estimate_tokens`: `len(text) // 4`. -/
def estimate_tokens (text : String) : Nat := text.length / 4

/-- The formatted block a page contributes to a chunk (lines 1103-1106). -/
def pageContentOf (r : PageData) : String :=
  "\n\n## " ++ r.title ++ "\n\n**URL:** " ++ r.url ++ "\n**Path:** `" ++ r.path ++ "`\n\n"
    ++ r.markdown

/-- The header block opening every chunk, with its back-patched
total-count placeholder (lines 1114-1119). -/
def chunkHeader (siteName base : String) (n : Nat) : String :=
  ("# " ++ pyTitleCase siteName ++ " Documentation - Chunk " ++ toString n
    ++ "\n\n**Source**: " ++ base ++ "\n**Chunk**: " ++ toString n
    ++ " of [total_chunks_placeholder]") ++ "\n"

/-- A page reference inside a chunk. -/
structure ChunkPageRef where
  url : String
  title : String
  wordCount : Nat
deriving DecidableEq

/-- A built chunk (`_create_chunk_info`'s dictionary). -/
structure ChunkInfo where
  chunkNumber : Nat
  filename : String
  content : String
  topics : List String
  pages : List ChunkPageRef
  wordCount : Nat
  estimatedTokens : Nat
deriving DecidableEq

/-- One `chunk_manifest["chunks"]` record. -/
structure ManifestEntry where
  chunkNumber : Nat
  filename : String
  topics : String
  pageCount : Nat
  wordCount : Nat
  estimatedTokens : Nat
deriving DecidableEq

/-- The chunk manifest. -/
structure ChunkManifest where
  siteName : String
  sourceUrl : String
  generatedAt : String
  totalChunks : Nat
  chunkSizeTarget : Nat
  chunks : List ManifestEntry
deriving DecidableEq

/-- `re.sub(r"[^\w\-_]", "-", main_topic.lower())[:30]` (`\w` in its
ASCII reading). -/
def safeTopic (t : String) : String :=
  String.mk (((lowerStr t).data.map
    (fun c => if c.isAlpha || c.isDigit || c = '_' || c = '-' then c else '-')).take 30)

/-- Python `f"{n:02d}"` for the chunk filename. -/
def pad2 (n : Nat) : String := if n < 10 then "0" ++ toString n else toString n

/-- `UniversalDocsCrawler._create_chunk_info`. -/
def createChunkInfo (siteName : String) (n : Nat) (content : String)
    (topics : List String) (pages : List ChunkPageRef) : ChunkInfo :=
  let mainTopic := match topics with | [] => "content" | t :: _ => t
  let filename := siteName ++ "_chunk_" ++ pad2 n ++ "_" ++ safeTopic mainTopic ++ ".md"
  let enhanced :=
    if 1 < n then
      content ++ "\n\n---\n**Navigation Context**:\n- Previous: [Chunk "
        ++ toString (n - 1) ++ "]\n- Next: [Chunk " ++ toString (n + 1)
        ++ "] (if available)\n- Index: See chunk_manifest.json for complete topic map\n"
    else content
  ⟨n, filename, enhanced, topics, pages, (pages.map (fun p => p.wordCount)).sum,
   estimate_tokens content⟩

/-- The manifest record written when a chunk closes. -/
def manifestEntryOf (n : Nat) (filename content : String) (topics : List String)
    (pages : List ChunkPageRef) : ManifestEntry :=
  ⟨n, filename, joinWith ", " (topics.take 3), pages.length,
   (pages.map (fun p => p.wordCount)).sum, estimate_tokens content⟩

/-- Number of `/` characters in a path (Python `x["path"].count("/")`). -/
def countSlash (s : String) : Nat := s.data.countP (fun c => c = '/')

/-- Python `<` on strings: lexicographic comparison of code points. -/
def lexLt : List Char → List Char → Bool
  | [], [] => false
  | [], _ :: _ => true
  | _ :: _, [] => false
  | a :: as, b :: bs => if a = b then lexLt as bs else decide (a < b)

/-- Strict order of the sort key `(path.count("/"), path)`. -/
def pageBefore (a b : PageData) : Bool :=
  if countSlash a.path < countSlash b.path then true
  else if countSlash b.path < countSlash a.path then false
  else lexLt a.path.data b.path.data

/-- Stable insertion: the new element goes after every element it is not
strictly before, preserving original order among equal keys. -/
def insPage (x : PageData) : List PageData → List PageData
  | [] => [x]
  | y :: ys => if pageBefore x y then x :: y :: ys else y :: insPage x ys

/-- A stable sort by `(path depth, path)` — Python's `sorted` is stable,
and any stable sort with the same key yields the same list. -/
def sortPages (l : List PageData) : List PageData :=
  l.foldl (fun acc x => insPage x acc) []

/-- The accumulator of the greedy chunk-building loop. -/
structure ChunkAccum where
  chunks : List ChunkInfo
  manifest : List ManifestEntry
  content : String
  topics : List String
  pages : List ChunkPageRef
  number : Nat
deriving DecidableEq

/-- One iteration of the `for result in sorted_results` loop of
`create_chunks`. -/
def chunkStep (siteName base : String) (chunkSize : Nat) (acc : ChunkAccum)
    (r : PageData) : ChunkAccum :=
  let pc := pageContentOf r
  let pref : ChunkPageRef := ⟨r.url, r.title, r.wordCount⟩
  if estimate_tokens (acc.content ++ pc) ≤ chunkSize ∨ acc.content = "" then
    let content1 :=
      (if acc.content = "" then chunkHeader siteName base acc.number else acc.content) ++ pc
    { acc with
      content := content1
      topics := acc.topics ++ [r.title]
      pages := acc.pages ++ [pref] }
  else
    let saved :=
      if acc.content ≠ "" then
        let info := createChunkInfo siteName acc.number acc.content acc.topics acc.pages
        (acc.chunks ++ [info],
         acc.manifest ++ [manifestEntryOf acc.number info.filename acc.content
           acc.topics acc.pages])
      else (acc.chunks, acc.manifest)
    let n1 := acc.number + 1
    ⟨saved.1, saved.2, chunkHeader siteName base n1 ++ pc, [r.title], [pref], n1⟩

/-- `UniversalDocsCrawler.create_chunks`: sort, accumulate greedily,
close the final chunk, then back-patch every chunk's total-count
placeholder. `base` is the instance's `base_url` and `now` stands for
`datetime.now().isoformat()`. -/
def create_chunks (base : String) (results : List PageData) (chunkSize : Nat)
    (siteName : String) (now : String) : List ChunkInfo × ChunkManifest :=
  let sorted := sortPages results
  let acc := sorted.foldl (chunkStep siteName base chunkSize) ⟨[], [], "", [], [], 1⟩
  let closed :=
    if acc.content ≠ "" then
      let info := createChunkInfo siteName acc.number acc.content acc.topics acc.pages
      (acc.chunks ++ [info],
       acc.manifest ++ [manifestEntryOf acc.number info.filename acc.content
         acc.topics acc.pages])
    else (acc.chunks, acc.manifest)
  let total := closed.1.length
  (closed.1.map (fun c =>
      { c with content := strReplace c.content "[total_chunks_placeholder]" (toString total) }),
   ⟨siteName, base, now, total, chunkSize, closed.2⟩)

/-! ## Theorems settling the claims -/

/-- C2: for every URL string that does not start with the configured
domain prefix, once a domain has been established `is_valid_url` returns
false, whatever the include and exclude pattern sets (and whatever the
external pattern-search collaborator) are. -/
theorem out_of_domain_rejected (reS : String → String → Bool) (domain : String)
    (pats : UrlPatterns) (url : String) (hdom : domain ≠ "")
    (hpre : strStarts domain url = false) :
    is_valid_url reS domain pats url = false := by
  unfold is_valid_url
  dsimp only
  split_ifs <;> simp_all

/-- Witness for `out_of_domain_rejected` at a concrete configuration. -/
theorem out_of_domain_rejected_witness :
    ("https://example.com" ≠ "" ∧
      strStarts "https://example.com" "https://other.com/docs" = false) ∧
    is_valid_url (fun _ _ => true) "https://example.com" ⟨[], []⟩
      "https://other.com/docs" = false :=
  ⟨⟨by decide, by decide⟩,
   out_of_domain_rejected (fun _ _ => true) "https://example.com" ⟨[], []⟩
     "https://other.com/docs" (by decide) (by decide)⟩

/-- C7: a URL whose percent-decoding contains a `${...}` marker, a
`{{...}}` marker, or a wildcard `*` (the corresponding three members of
`invalid_patterns`, matched exactly as the source matches them) is always
rejected by `is_valid_url`. -/
theorem template_or_wildcard_rejected (reS : String → String → Bool)
    (domain : String) (pats : UrlPatterns) (url : String)
    (h : reSearchL dollarTemplateRe (lowerStr (pyUnquote url)).data = true
       ∨ reSearchL braceTemplateRe (lowerStr (pyUnquote url)).data = true
       ∨ reSearchL starRe (lowerStr (pyUnquote url)).data = true) :
    is_valid_url reS domain pats url = false := by
  have hany : invalidPatternsList.any
      (fun re => reSearchL re (lowerStr (pyUnquote url)).data) = true := by
    rcases h with h | h | h
    · exact List.any_eq_true.2 ⟨dollarTemplateRe, by simp [invalidPatternsList], h⟩
    · exact List.any_eq_true.2 ⟨braceTemplateRe, by simp [invalidPatternsList], h⟩
    · exact List.any_eq_true.2 ⟨starRe, by simp [invalidPatternsList], h⟩
  unfold is_valid_url
  dsimp only
  split_ifs <;> simp_all

/-- Witness for `template_or_wildcard_rejected` on a template URL. -/
theorem template_or_wildcard_rejected_witness :
    reSearchL dollarTemplateRe
      (lowerStr (pyUnquote "https://example.com/$\x7bid\x7d")).data = true ∧
    is_valid_url (fun _ _ => true) "https://example.com" ⟨[], []⟩
      "https://example.com/$\x7bid\x7d" = false :=
  ⟨by decide,
   template_or_wildcard_rejected (fun _ _ => true) "https://example.com" ⟨[], []⟩
     "https://example.com/$\x7bid\x7d" (Or.inl (by decide))⟩

/-- C4 counterexample: the cleaner is not idempotent. On the line
`[ab](javascript:x)` the first pass rewrites the javascript link to the
bare text `ab`, and a second pass then deletes that line as a too-short
fragment, so `clean (clean x) ≠ clean x`. -/
theorem clean_not_idempotent_cx :
    clean_markdown_for_llm
        (clean_markdown_for_llm "[ab](javascript:x)" "https://example.com")
        "https://example.com"
      ≠ clean_markdown_for_llm "[ab](javascript:x)" "https://example.com" := by
  decide

/-- C4 amended: the cleaner is deterministic (a pure function, with the
URL argument unused) and idempotent on already-clean input: whenever one
pass fixes the text, a second pass returns it unchanged. Full idempotence
fails (see `clean_not_idempotent_cx`). -/
theorem clean_idempotent_on_clean_input (x u : String)
    (h : clean_markdown_for_llm x u = x) :
    clean_markdown_for_llm (clean_markdown_for_llm x u) u
      = clean_markdown_for_llm x u := by
  rw [h]; exact h

/-- Witness for `clean_idempotent_on_clean_input` on an already-clean
text. -/
theorem clean_idempotent_on_clean_input_witness :
    clean_markdown_for_llm "Hello World" "u" = "Hello World" ∧
    clean_markdown_for_llm (clean_markdown_for_llm "Hello World" "u") "u"
      = clean_markdown_for_llm "Hello World" "u" :=
  ⟨by decide, clean_idempotent_on_clean_input "Hello World" "u" (by decide)⟩

/-! ### Support lemmas about stripping and the title loop -/

lemma dropWhile_head_not (p : Char → Bool) :
    ∀ l : List Char, l.dropWhile p = [] ∨
      ∃ c t, l.dropWhile p = c :: t ∧ p c = false := by
  intro l
  induction l with
  | nil => exact Or.inl rfl
  | cons c t ih =>
    by_cases h : p c
    · simpa [List.dropWhile_cons, h] using ih
    · exact Or.inr ⟨c, t, by simp [List.dropWhile_cons, h], by simpa using h⟩

lemma stripRight_last (cs : List Char) :
    stripRight cs = [] ∨ ∃ t c, stripRight cs = t ++ [c] ∧ isPyWs c = false := by
  unfold stripRight
  rcases dropWhile_head_not isPyWs cs.reverse with h | ⟨c, t, h, hc⟩
  · exact Or.inl (by simp [h])
  · exact Or.inr ⟨t.reverse, c, by simp [h], hc⟩

lemma stripL_last (cs : List Char) :
    stripL cs = [] ∨ ∃ t c, stripL cs = t ++ [c] ∧ isPyWs c = false :=
  stripRight_last (stripLeft cs)

lemma mk_eq_empty_iff (l : List Char) : String.mk l = "" ↔ l = [] := by
  constructor
  · intro h
    have : (String.mk l).data = ("" : String).data := congrArg String.data h
    simpa using this
  · intro h; rw [h]

lemma pyStrip_last (s : String) :
    pyStrip s = "" ∨ ∃ t c, (pyStrip s).data = t ++ [c] ∧ isPyWs c = false := by
  unfold pyStrip
  rcases stripL_last s.data with h | ⟨t, c, h, hc⟩
  · exact Or.inl ((mk_eq_empty_iff _).2 h)
  · exact Or.inr ⟨t, c, by simpa using h, hc⟩

lemma stripRight_eq_nil_iff (l : List Char) :
    stripRight l = [] ↔ ∀ x ∈ l, isPyWs x = true := by
  unfold stripRight
  rw [List.reverse_eq_nil_iff, List.dropWhile_eq_nil_iff]
  constructor
  · intro h x hx; exact h x (List.mem_reverse.2 hx)
  · intro h x hx; exact h x (List.mem_reverse.1 hx)

lemma stripL_ne_nil_of_mem (cs : List Char) (c : Char) (hc : c ∈ cs)
    (hw : isPyWs c = false) : stripL cs ≠ [] := by
  intro h
  have hall : ∀ x ∈ stripLeft cs, isPyWs x = true := (stripRight_eq_nil_iff _).1 h
  have hcs : cs.takeWhile isPyWs ++ cs.dropWhile isPyWs = cs :=
    List.takeWhile_append_dropWhile isPyWs cs
  have : c ∈ cs.takeWhile isPyWs ∨ c ∈ cs.dropWhile isPyWs := by
    rw [← List.mem_append, hcs]; exact hc
  rcases this with h1 | h2
  · exact absurd (List.mem_takeWhile_imp h1) (by simp [hw])
  · exact absurd (hall c h2) (by simp [hw])

lemma eq_cons_cons_of_leadsWith (p q : Char) (cs : List Char)
    (h : leadsWith [p, q] cs = true) : ∃ rest, cs = p :: q :: rest := by
  match cs with
  | [] => simp [leadsWith] at h
  | [x] => simp [leadsWith] at h
  | x :: y :: rest =>
    simp only [leadsWith, Bool.and_eq_true, decide_eq_true_eq] at h
    exact ⟨rest, by rw [h.1, h.2.1]⟩

lemma eq_cons3_of_leadsWith (p q r : Char) (cs : List Char)
    (h : leadsWith [p, q, r] cs = true) : ∃ rest, cs = p :: q :: r :: rest := by
  match cs with
  | [] => simp [leadsWith] at h
  | [x] => simp [leadsWith] at h
  | [x, y] => simp [leadsWith] at h
  | x :: y :: z :: rest =>
    simp only [leadsWith, Bool.and_eq_true, decide_eq_true_eq] at h
    exact ⟨rest, by rw [h.1, h.2.1, h.2.2.1]⟩

lemma last_mem_tail2 (t rest : List Char) (c a b : Char)
    (h : t ++ [c] = a :: b :: rest) (hr : rest ≠ []) : c ∈ rest := by
  have h3 : c :: t.reverse = rest.reverse ++ [b, a] := by
    have := congrArg List.reverse h
    simpa using this
  cases hrev : rest.reverse with
  | nil => exact absurd (by simpa using congrArg List.reverse hrev) hr
  | cons d ds =>
    rw [hrev] at h3
    have hcd : c = d := by simpa using congrArg (fun l => l.headD ' ') h3
    have : d ∈ rest.reverse := by rw [hrev]; exact List.mem_cons_self d ds
    rw [hcd]
    exact List.mem_reverse.1 this

lemma last_mem_tail3 (t rest : List Char) (c a b e : Char)
    (h : t ++ [c] = a :: b :: e :: rest) (hr : rest ≠ []) : c ∈ rest := by
  have h2 : (t ++ [c]).tail = b :: e :: rest := by rw [h]; rfl
  cases t with
  | nil => simp at h
  | cons x xs =>
    have : xs ++ [c] = b :: e :: rest := by simpa using h2
    exact last_mem_tail2 xs rest c b e this hr

/-- A stripped nonempty line ends in a non-whitespace character. -/
lemma stripLines_mem (markdown l : String) (hl : l ∈ stripLines markdown) :
    l ≠ "" ∧ ∃ t c, l.data = t ++ [c] ∧ isPyWs c = false := by
  unfold stripLines at hl
  rcases List.mem_filter.1 hl with ⟨hmap, hne⟩
  rcases List.mem_map.1 hmap with ⟨o, -, rfl⟩
  have hne' : pyStrip o ≠ "" := by simpa using hne
  rcases pyStrip_last o with h | h
  · exact absurd h hne'
  · exact ⟨hne', h⟩

/-- The title taken from a level-1 heading line of `stripLines` is
nonempty. -/
lemma title_h1_ne (l : String)
    (hprop : l ≠ "" ∧ ∃ t c, l.data = t ++ [c] ∧ isPyWs c = false)
    (hs : strStarts "# " l = true) :
    pyStrip (String.mk (l.data.drop 2)) ≠ "" := by
  obtain ⟨-, t, c, hdata, hc⟩ := hprop
  obtain ⟨rest, hrest⟩ := eq_cons_cons_of_leadsWith '#' ' ' l.data hs
  cases hr : rest with
  | nil =>
    rw [hr] at hrest
    rw [hrest] at hdata
    have : c = ' ' := by
      have := congrArg (fun u => u.getLast? ) hdata
      simpa using this.symm
    rw [this] at hc
    simp [isPyWs] at hc
  | cons r0 rs =>
    have hrne : rest ≠ [] := by rw [hr]; simp
    have hcmem : c ∈ rest := last_mem_tail2 t rest c '#' ' ' (hdata ▸ hrest ▸ rfl) hrne
    have hdrop : l.data.drop 2 = rest := by rw [hrest]; rfl
    rw [hdrop]
    unfold pyStrip
    intro hcontra
    exact stripL_ne_nil_of_mem rest c hcmem hc ((mk_eq_empty_iff _).1 hcontra)

/-- The title taken from a level-2 heading line of `stripLines` is
nonempty. -/
lemma title_h2_ne (l : String)
    (hprop : l ≠ "" ∧ ∃ t c, l.data = t ++ [c] ∧ isPyWs c = false)
    (hs : strStarts "## " l = true) :
    pyStrip (String.mk (l.data.drop 3)) ≠ "" := by
  obtain ⟨-, t, c, hdata, hc⟩ := hprop
  obtain ⟨rest, hrest⟩ := eq_cons3_of_leadsWith '#' '#' ' ' l.data hs
  cases hr : rest with
  | nil =>
    rw [hr] at hrest
    rw [hrest] at hdata
    have : c = ' ' := by
      have := congrArg (fun u => u.getLast? ) hdata
      simpa using this.symm
    rw [this] at hc
    simp [isPyWs] at hc
  | cons r0 rs =>
    have hrne : rest ≠ [] := by rw [hr]; simp
    have hcmem : c ∈ rest := last_mem_tail3 t rest c '#' '#' ' ' (hdata ▸ hrest ▸ rfl) hrne
    have hdrop : l.data.drop 3 = rest := by rw [hrest]; rfl
    rw [hdrop]
    unfold pyStrip
    intro hcontra
    exact stripL_ne_nil_of_mem rest c hcmem hc ((mk_eq_empty_iff _).1 hcontra)

/-- The title rule as the claim words it (first level-1 heading anywhere;
only if none exists, the first level-2 heading; else the URL fallback).
Kept separate from the source model for comparison. -/
def titleClaimSpec (markdown url : String) : String :=
  let lines := stripLines markdown
  match lines.find? (fun l => strStarts "# " l) with
  | some l => pyStrip (String.mk (l.data.drop 2))
  | none =>
    match lines.find? (fun l => strStarts "## " l) with
    | some l => pyStrip (String.mk (l.data.drop 3))
    | none => urlTitleFromPath url

/-- The title rule the source implements: the first line that is either
a level-1 or a level-2 heading wins, whichever occurs first; else the URL
fallback. -/
def titleAmended (markdown url : String) : String :=
  let lines := stripLines markdown
  match lines.find? (fun l => strStarts "# " l || strStarts "## " l) with
  | some l =>
    if strStarts "# " l then pyStrip (String.mk (l.data.drop 2))
    else pyStrip (String.mk (l.data.drop 3))
  | none => urlTitleFromPath url

/-- C5 counterexample: on `## A\n# B` the extractor stops at the level-2
heading `A` even though a level-1 heading `B` exists further down, so the
claimed rule (level-1 anywhere beats level-2) disagrees with the code. -/
theorem title_order_cx :
    (extract_title_and_description "## A\n# B" "https://example.com/docs").1
        ≠ titleClaimSpec "## A\n# B" "https://example.com/docs" ∧
    (extract_title_and_description "## A\n# B" "https://example.com/docs").1 = "A" ∧
    titleClaimSpec "## A\n# B" "https://example.com/docs" = "B" := by
  refine ⟨by decide, by decide, by decide⟩

/-- The title loop equals a first-match search for either heading level. -/
lemma findTitleGo_eq_find (lines : List String) :
    findTitleGo "" lines =
      match lines.find? (fun l => strStarts "# " l || strStarts "## " l) with
      | some l =>
        if strStarts "# " l then pyStrip (String.mk (l.data.drop 2))
        else pyStrip (String.mk (l.data.drop 3))
      | none => "" := by
  induction lines with
  | nil => rfl
  | cons l ls ih =>
    by_cases h1 : strStarts "# " l = true
    · simp [findTitleGo, List.find?_cons, h1]
    · by_cases h2 : strStarts "## " l = true
      · simp [findTitleGo, List.find?_cons, h1, h2]
      · simpa [findTitleGo, List.find?_cons, h1, h2] using ih

/-- The nonemptiness of a title found by the loop on stripped lines. -/
lemma findTitleGo_ne_of_find (markdown l : String)
    (hfind : (stripLines markdown).find?
      (fun l => strStarts "# " l || strStarts "## " l) = some l) :
    findTitleGo "" (stripLines markdown) ≠ "" := by
  rw [findTitleGo_eq_find, hfind]
  have hmem : l ∈ stripLines markdown := List.mem_of_find?_eq_some hfind
  have hpred := List.find?_some hfind
  have hprop := stripLines_mem markdown l hmem
  by_cases h1 : strStarts "# " l = true
  · simpa [h1] using title_h1_ne l hprop h1
  · have h2 : strStarts "## " l = true := by
      rcases Bool.or_eq_true_iff.1 hpred with h | h
      · exact absurd h h1
      · exact h
    simpa [h1] using title_h2_ne l hprop h2

/-- C5 amended: the title is determined by the first line that is either
a level-1 or a level-2 heading (a level-2 heading occurring earlier wins
over a later level-1 heading); when no such line exists it is derived
from the URL exactly as claimed. -/
theorem title_first_heading_either_level (markdown url : String) :
    (extract_title_and_description markdown url).1 = titleAmended markdown url := by
  unfold extract_title_and_description titleAmended
  dsimp only
  rw [findTitleGo_eq_find]
  cases hfind : (stripLines markdown).find?
      (fun l => strStarts "# " l || strStarts "## " l) with
  | none => simp
  | some l =>
    have hne : findTitleGo "" (stripLines markdown) ≠ "" :=
      findTitleGo_ne_of_find markdown l hfind
    rw [findTitleGo_eq_find, hfind] at hne
    dsimp only at hne ⊢
    rw [if_neg hne]

/-- C10: the extractor always produces a nonempty title — every branch
of the fallback chain (either heading level, URL path segment, or the
literal `Documentation`) yields a nonempty string. -/
lemma pyTitleGo_length (b : Bool) (l : List Char) : (pyTitleGo b l).length = l.length := by
  induction l generalizing b with
  | nil => rfl
  | cons c t ih => by_cases hc : c.isAlpha <;> simp [pyTitleGo, hc, ih]

lemma data_eq_nil_of_eq_empty (s : String) (h : s = "") : s.data = [] := by
  rw [h]

lemma eq_empty_of_data_eq_nil (s : String) (h : s.data = []) : s = "" := by
  cases s
  simpa [mk_eq_empty_iff] using h

/-- The URL fallback of the title extractor is never empty. -/
lemma urlTitleFromPath_ne (url : String) : urlTitleFromPath url ≠ "" := by
  unfold urlTitleFromPath
  dsimp only
  cases hlast : (strSplitChar '/' (pyStripSlashes (pyUrlparse url).path)).getLast? with
  | none => decide
  | some last =>
    dsimp only
    split_ifs with h
    · intro hcontra
      apply h
      apply eq_empty_of_data_eq_nil
      have hnil : (pyTitleCase (dashUnderToSpace last)).data = [] :=
        data_eq_nil_of_eq_empty _ hcontra
      have hlen : (pyTitleCase (dashUnderToSpace last)).data.length
          = last.data.length := by
        unfold pyTitleCase dashUnderToSpace
        simp [pyTitleGo_length]
      rw [hnil] at hlen
      exact List.length_eq_zero.1 hlen.symm
    · decide

/-- C10: the extractor always produces a nonempty title — every branch
of the fallback chain (either heading level, URL path segment, or the
literal `Documentation`) yields a nonempty string. -/
theorem title_always_nonempty (markdown url : String) :
    (extract_title_and_description markdown url).1 ≠ "" := by
  unfold extract_title_and_description
  dsimp only
  split_ifs with h
  · exact urlTitleFromPath_ne url
  · exact h

/-! ### C3: the insufficient-content branch of `crawl_page` -/

/-- A fetcher stub answering success with short but nonempty text. -/
def shortFetchStub : String → Option FetchResult :=
  fun _ => some ⟨true, "Hello World", "", some 200⟩

/-- C3 counterexample: a successful fetch of a valid URL with nonempty
text whose cleaned length (11) is at most the configured minimum (100)
yields no `PageResult` — but, contrary to the claim, the URL is NOT
recorded in the failed list either: the branch only prints a diagnostic
(crawler.py lines 499-502) and falls through to `return None, set()`. -/
theorem insufficient_content_not_failed_cx :
    (crawl_page (fun _ _ => false) "https://example.com" ⟨[], []⟩ (fun _ _ => none)
        shortFetchStub {} "t" [] "https://example.com/docs/a").failed = [] ∧
    (crawl_page (fun _ _ => false) "https://example.com" ⟨[], []⟩ (fun _ _ => none)
        shortFetchStub {} "t" [] "https://example.com/docs/a").page = none ∧
    (crawl_page (fun _ _ => false) "https://example.com" ⟨[], []⟩ (fun _ _ => none)
        shortFetchStub {} "t" [] "https://example.com/docs/a").fetched = true := by
  refine ⟨by decide, by decide, by decide⟩

/-- C3 amended: when the fetch succeeds with nonempty extracted text but
the cleaned content's length is at or below the configured minimum,
`crawl_page` appends no `PageResult`, discovers no links, and leaves the
failed-URL list unchanged — the URL is not recorded as failed (unlike a
fetch failure, which appends it). -/
theorem insufficient_content_silent (reS : String → String → Bool) (domain : String)
    (pats : UrlPatterns) (ujoin : String → String → Option String)
    (fetch : String → Option FetchResult) (cfg : CrawlConfig) (now : String)
    (failed : List String) (url : String) (r : FetchResult)
    (hf : fetch url = some r) (hs : r.success = true) (hm : r.markdown ≠ "")
    (hlen : (clean_markdown_for_llm r.markdown url).length ≤ cfg.minContentLength) :
    (crawl_page reS domain pats ujoin fetch cfg now failed url).page = none ∧
    (crawl_page reS domain pats ujoin fetch cfg now failed url).links = [] ∧
    (crawl_page reS domain pats ujoin fetch cfg now failed url).failed = failed := by
  unfold crawl_page
  by_cases hv : is_valid_url reS domain pats url
  · rw [if_neg (not_not_intro hv), hf]
    dsimp only
    rw [if_pos ⟨hs, hm⟩, if_neg (by omega)]
    exact ⟨rfl, rfl, rfl⟩
  · rw [if_pos hv]
    exact ⟨rfl, rfl, rfl⟩

/-- Witness for `insufficient_content_silent` on the concrete stub. -/
theorem insufficient_content_silent_witness :
    (shortFetchStub "https://example.com/docs/a"
        = some ⟨true, "Hello World", "", some 200⟩ ∧
      (⟨true, "Hello World", "", some 200⟩ : FetchResult).success = true ∧
      (⟨true, "Hello World", "", some 200⟩ : FetchResult).markdown ≠ "" ∧
      (clean_markdown_for_llm "Hello World" "https://example.com/docs/a").length
        ≤ CrawlConfig.minContentLength {}) ∧
    ((crawl_page (fun _ _ => false) "https://example.com" ⟨[], []⟩ (fun _ _ => none)
        shortFetchStub {} "t" ["prior"] "https://example.com/docs/a").page = none ∧
      (crawl_page (fun _ _ => false) "https://example.com" ⟨[], []⟩ (fun _ _ => none)
        shortFetchStub {} "t" ["prior"] "https://example.com/docs/a").links = [] ∧
      (crawl_page (fun _ _ => false) "https://example.com" ⟨[], []⟩ (fun _ _ => none)
        shortFetchStub {} "t" ["prior"] "https://example.com/docs/a").failed
        = ["prior"]) :=
  ⟨⟨by decide, by decide, by decide, by decide⟩,
   insufficient_content_silent (fun _ _ => false) "https://example.com" ⟨[], []⟩
     (fun _ _ => none) shortFetchStub {} "t" ["prior"] "https://example.com/docs/a"
     ⟨true, "Hello World", "", some 200⟩ (by decide) (by decide) (by decide) (by decide)⟩

/-! ### C8: link discovery admits only filtered URLs -/

lemma addLink_preserves (reS : String → String → Bool) (domain : String)
    (pats : UrlPatterns) (ujoin : String → String → Option String)
    (base : String) (skips : List String) (acc : List String) (target : String)
    (h : acc.Nodup ∧ ∀ u ∈ acc, is_valid_url reS domain pats u = true) :
    (addLink reS domain pats ujoin base skips acc target).Nodup ∧
    ∀ u ∈ addLink reS domain pats ujoin base skips acc target,
      is_valid_url reS domain pats u = true := by
  unfold addLink
  split_ifs with h1
  · exact h
  · cases hj : ujoin base target with
    | none => exact h
    | some full =>
      dsimp only
      split_ifs with h2
      · refine ⟨h.1.insert, fun u hu => ?_⟩
        rcases List.mem_insert_iff.1 hu with rfl | hu
        · exact h2
        · exact h.2 u hu
      · exact h

lemma foldl_preserve {α β : Type} (P : List β → Prop) (f : List β → α → List β)
    (hstep : ∀ acc x, P acc → P (f acc x)) :
    ∀ (l : List α) (acc : List β), P acc → P (l.foldl f acc)
  | [], _, h => h
  | x :: xs, acc, h => foldl_preserve P f hstep xs (f acc x) (hstep acc x h)

/-- C8: the set returned by the link discoverer contains no duplicates
and only URLs admitted by `is_valid_url` under the same filter state,
whatever the inputs, the abstract pattern search, and the abstract URL
resolver are. -/
theorem links_admitted_and_nodup (reS : String → String → Bool) (domain : String)
    (pats : UrlPatterns) (ujoin : String → String → Option String)
    (html markdown base : String) :
    (extract_links_from_content reS domain pats ujoin html markdown base).Nodup ∧
    ∀ u ∈ extract_links_from_content reS domain pats ujoin html markdown base,
      is_valid_url reS domain pats u = true := by
  unfold extract_links_from_content
  dsimp only
  apply foldl_preserve
    (P := fun acc => acc.Nodup ∧ ∀ u ∈ acc, is_valid_url reS domain pats u = true)
  · intro acc x h
    exact addLink_preserves reS domain pats ujoin base _ acc _ h
  · apply foldl_preserve
      (P := fun acc => acc.Nodup ∧ ∀ u ∈ acc, is_valid_url reS domain pats u = true)
    · intro acc x h
      exact addLink_preserves reS domain pats ujoin base _ acc _ h
    · exact ⟨List.nodup_nil, by simp⟩

/-! ### C1: dequeue-marks-visited and fetch-at-most-once -/

/-- The invariant of the crawl loop: the fetch log has no duplicates and
both the fetch log and the dequeue log are inside the visited set. -/
def crawlInv (s : LoopState) : Prop :=
  s.fetchLog.Nodup ∧ (∀ u ∈ s.fetchLog, u ∈ s.crawled) ∧
    (∀ u ∈ s.popLog, u ∈ s.crawled)

lemma deep_crawl_loop_inv (reS : String → String → Bool) (domain : String)
    (pats : UrlPatterns) (ujoin : String → String → Option String)
    (fetch : String → Option FetchResult) (cfg : CrawlConfig) (now : String)
    (choose : List String → String) (maxPages : Nat) (fuel : Nat) :
    ∀ s, crawlInv s →
      crawlInv (deep_crawl_loop reS domain pats ujoin fetch cfg now choose maxPages fuel s) := by
  induction fuel with
  | zero => exact fun s h => h
  | succ fu ih =>
    intro s h
    unfold deep_crawl_loop
    split_ifs with hstop
    · exact h
    · dsimp only
      by_cases hmem : choose s.frontier ∈ s.crawled
      · rw [if_pos hmem]
        apply ih
        refine ⟨h.1, h.2.1, fun x hx => ?_⟩
        rcases List.mem_append.1 hx with hx | hx
        · exact h.2.2 x hx
        · rw [List.mem_singleton.1 hx]; exact hmem
      · rw [if_neg hmem]
        apply ih
        have hnotin : choose s.frontier ∉ s.fetchLog :=
          fun hc => hmem (h.2.1 _ hc)
        refine ⟨?_, ?_, ?_⟩
        · cases hfetched : (crawl_page reS domain pats ujoin fetch cfg now s.failed
              (choose s.frontier)).fetched
          · simpa using h.1
          · simpa [List.nodup_append] using ⟨h.1, hnotin⟩
        · intro x hx
          dsimp only at hx
          rcases List.mem_append.1 hx with hx | hx
          · exact List.mem_insert_of_mem (h.2.1 x hx)
          · have : x = choose s.frontier := by
              rcases hfetched : (crawl_page reS domain pats ujoin fetch cfg now s.failed
                  (choose s.frontier)).fetched with _ | _ <;>
                rw [hfetched] at hx <;> simp at hx <;> try exact hx
            rw [this]; exact List.mem_insert_self _ _
        · intro x hx
          dsimp only at hx
          rcases List.mem_append.1 hx with hx | hx
          · exact List.mem_insert_of_mem (h.2.2 x hx)
          · rw [List.mem_singleton.1 hx]; exact List.mem_insert_self _ _

/-- C1: in every run of `deep_crawl` — for every fetcher, resolver,
pattern search, pop order and fuel — the sequence of URLs passed to the
fetcher contains no URL twice (no URL is fetched more than once within a
run, including URLs whose fetch fails), every fetched URL is in the final
visited set, and every URL dequeued from the frontier is in the final
visited set: dequeuing marks a URL visited before any fetch begins. -/
theorem deep_crawl_fetched_once (reS : String → String → Bool)
    (ujoin : String → String → Option String) (fetch : String → Option FetchResult)
    (cfg : CrawlConfig) (now : String) (choose : List String → String)
    (st : CrawlerState) (startUrl : String) (maxPages fuel : Nat) :
    ((deep_crawl reS ujoin fetch cfg now choose st startUrl maxPages fuel).1).fetchLog.Nodup ∧
    (∀ u ∈ ((deep_crawl reS ujoin fetch cfg now choose st startUrl maxPages fuel).1).fetchLog,
      u ∈ ((deep_crawl reS ujoin fetch cfg now choose st startUrl maxPages fuel).1).crawled) ∧
    (∀ u ∈ ((deep_crawl reS ujoin fetch cfg now choose st startUrl maxPages fuel).1).popLog,
      u ∈ ((deep_crawl reS ujoin fetch cfg now choose st startUrl maxPages fuel).1).crawled) := by
  unfold deep_crawl
  dsimp only
  exact deep_crawl_loop_inv _ _ _ _ _ _ _ _ _ fuel _
    ⟨List.nodup_nil, by simp, by simp⟩

/-! ### C6: the Init phase of `deep_crawl` -/

/-- C6 counterexample: the code before `deep_crawl`'s loop
(`setup_for_website` plus seeding `urls_to_crawl = {start_url}`) performs
no clearing: on an instance whose visited set is nonempty from a previous
run, the visited set is still nonempty when the loop starts, contradicting
the claim that Init clears visited/results/failed. -/
theorem init_does_not_clear_cx :
    ((deep_crawl_init
        { mkCrawler ⟨[], []⟩ with crawled := ["https://example.com/old"] }
        "https://example.com/docs").1).crawled = ["https://example.com/old"] ∧
    ((deep_crawl_init
        { mkCrawler ⟨[], []⟩ with crawled := ["https://example.com/old"] }
        "https://example.com/docs").1).crawled ≠ [] := by
  refine ⟨rfl, by decide⟩

/-- C6 amended: visited/results/failed are empty at loop start because
the constructor initialises them and `deep_crawl`'s Init phase leaves
them untouched — so on a freshly constructed crawler (one instance per
run, as the design notes require) they are empty when the loop starts and
the frontier holds exactly the seed URL; `deep_crawl` itself clears
nothing. -/
theorem init_fresh_state (pats : UrlPatterns) (startUrl : String) :
    ((deep_crawl_init (mkCrawler pats) startUrl).1).crawled = [] ∧
    ((deep_crawl_init (mkCrawler pats) startUrl).1).results = [] ∧
    ((deep_crawl_init (mkCrawler pats) startUrl).1).failed = [] ∧
    (deep_crawl_init (mkCrawler pats) startUrl).2 = [startUrl] :=
  ⟨rfl, rfl, rfl, rfl⟩

/-! ### C9: a single oversized page still yields exactly one full chunk -/

lemma replaceGo_id_of_no_occur (pat repl : List Char) :
    ∀ (fu : Nat) (t : List Char), occursB pat t = false →
      replaceGo pat repl fu t = t := by
  intro fu
  induction fu with
  | zero => intro t _; rfl
  | succ fu ih =>
    intro t h
    cases t with
    | nil => rfl
    | cons c t' =>
      unfold occursB at h
      rw [Bool.or_eq_false_iff] at h
      unfold replaceGo
      rw [if_neg (by simp [h.1]), ih t' h.2]

lemma mem_pat_of_leadsWith_long (pat : List Char) :
    ∀ (s t : List Char) (x : Char), leadsWith pat (s ++ t) = true →
      s.length < pat.length → x ∈ s → x ∈ pat := by
  induction pat with
  | nil => intro s t x _ hlen _; simp at hlen
  | cons p ps ih =>
    intro s t x h hlen hx
    cases s with
    | nil => simp at hx
    | cons c cs =>
      simp only [List.cons_append, leadsWith, Bool.and_eq_true, decide_eq_true_eq] at h
      rcases List.mem_cons.1 hx with rfl | hx
      · rw [← h.1]; exact List.mem_cons_self _ _
      · exact List.mem_cons_of_mem p
          (ih cs t x h.2 (by simpa using Nat.lt_of_succ_lt_succ hlen) hx)

/-- When the pattern contains no newline, scanning a text of the form
`s ++ t` where `s` ends in a newline and `t` contains no occurrence of
the pattern leaves `t` intact as a suffix of the replacement result. -/
lemma replaceGo_append_keeps_tail (pat repl : List Char) (hnl : '\n' ∉ pat) :
    ∀ (fu : Nat) (s t : List Char), (s = [] ∨ ∃ s0, s = s0 ++ ['\n']) →
      occursB pat t = false →
      ∃ pre, replaceGo pat repl fu (s ++ t) = pre ++ t := by
  intro fu
  induction fu with
  | zero => intro s t _ _; exact ⟨s, rfl⟩
  | succ fu ih =>
    intro s t hs hno
    rcases hs with rfl | ⟨s0, rfl⟩
    · exact ⟨[], by simpa using replaceGo_id_of_no_occur pat repl (fu + 1) t hno⟩
    · cases hsplit : s0 ++ ['\n'] with
      | nil => simp at hsplit
      | cons c s' =>
        by_cases hL : leadsWith pat ((c :: s') ++ t) = true
        · have hlen : pat.length ≤ (c :: s').length := by
            by_contra hgt
            push_neg at hgt
            have hmem : '\n' ∈ c :: s' := by
              rw [← hsplit]; simp
            exact hnl (mem_pat_of_leadsWith_long pat (c :: s') t '\n' hL hgt hmem)
          have hdrop : ((c :: s') ++ t).drop pat.length
              = ((c :: s').drop pat.length) ++ t :=
            List.drop_append_of_le_length hlen
          have hs2 : (c :: s').drop pat.length = [] ∨
              ∃ s1, (c :: s').drop pat.length = s1 ++ ['\n'] := by
            rw [← hsplit]
            by_cases hks : pat.length ≤ s0.length
            · exact Or.inr ⟨s0.drop pat.length, List.drop_append_of_le_length hks⟩
            · left
              have : (s0 ++ ['\n']).length ≤ pat.length := by
                rw [← hsplit] at hlen
                simp only [List.length_append, List.length_singleton]
                omega
              exact List.drop_eq_nil_of_le this
          obtain ⟨pre', heq⟩ := ih ((c :: s').drop pat.length) t hs2 hno
          refine ⟨repl ++ pre', ?_⟩
          simp only [replaceGo, List.append_eq]
          rw [← List.cons_append, if_pos hL, hdrop, heq, List.append_assoc]
        · have hs' : s' = [] ∨ ∃ s1, s' = s1 ++ ['\n'] := by
            cases s0 with
            | nil =>
              left
              have : ([] : List Char) ++ ['\n'] = c :: s' := hsplit
              simpa using congrArg List.tail this
            | cons d s0' =>
              right
              have : d :: (s0' ++ ['\n']) = c :: s' := by simpa using hsplit
              exact ⟨s0', by simpa using (congrArg List.tail this).symm⟩
          obtain ⟨pre', heq⟩ := ih s' t hs' hno
          refine ⟨c :: pre', ?_⟩
          simp only [replaceGo, List.append_eq]
          rw [← List.cons_append, if_neg hL, heq]
          rfl

lemma chunkHeader_data_split (siteName base : String) (n : Nat) :
    ∃ h0, (chunkHeader siteName base n).data = h0 ++ ['\n'] :=
  ⟨("# " ++ pyTitleCase siteName ++ " Documentation - Chunk " ++ toString n
    ++ "\n\n**Source**: " ++ base ++ "\n**Chunk**: " ++ toString n
    ++ " of [total_chunks_placeholder]").data, rfl⟩

lemma chunkHeader_append_ne (siteName base pcs : String) (n : Nat) :
    chunkHeader siteName base n ++ pcs ≠ "" := by
  obtain ⟨h0, hh⟩ := chunkHeader_data_split siteName base n
  intro hcontra
  have hdata : (chunkHeader siteName base n ++ pcs).data = [] :=
    data_eq_nil_of_eq_empty _ hcontra
  have : (h0 ++ ['\n']) ++ pcs.data = [] := by
    rw [← hh]
    exact hdata
  simp at this

/-- C9: `create_chunks` on a single page whose formatted content alone
exceeds the token budget produces exactly one chunk, and that chunk's
content ends with the page's full formatted block — nothing is dropped
(the side condition excludes page content containing the internal
back-patch placeholder token, which the placeholder rewrite would touch). -/
theorem single_oversized_page_one_chunk (base siteName now : String) (p : PageData)
    (chunkSize : Nat)
    (hbig : chunkSize < estimate_tokens (pageContentOf p))
    (hnoph : occursB "[total_chunks_placeholder]".data (pageContentOf p).data = false) :
    (create_chunks base [p] chunkSize siteName now).1.length = 1 ∧
    ∀ c ∈ (create_chunks base [p] chunkSize siteName now).1,
      ∃ pre, c.content.data = pre ++ (pageContentOf p).data := by
  have hstep : List.foldl (chunkStep siteName base chunkSize)
      ⟨[], [], "", [], [], 1⟩ (sortPages [p]) =
      ⟨[], [], chunkHeader siteName base 1 ++ pageContentOf p, [p.title],
        [⟨p.url, p.title, p.wordCount⟩], 1⟩ := by
    show chunkStep siteName base chunkSize ⟨[], [], "", [], [], 1⟩ p = _
    unfold chunkStep
    dsimp only
    rw [if_pos (Or.inr rfl), if_pos rfl]
    rfl
  have hne : chunkHeader siteName base 1 ++ pageContentOf p ≠ "" :=
    chunkHeader_append_ne siteName base (pageContentOf p) 1
  unfold create_chunks
  dsimp only
  rw [hstep]
  dsimp only
  rw [if_pos hne]
  dsimp only [createChunkInfo]
  rw [if_neg (by omega : ¬ 1 < 1)]
  refine ⟨rfl, fun c hc => ?_⟩
  simp only [List.nil_append, List.map_cons, List.map_nil, List.mem_singleton] at hc
  subst hc
  dsimp only
  unfold strReplace
  dsimp only
  exact replaceGo_append_keeps_tail "[total_chunks_placeholder]".data _ (by decide) _
    (chunkHeader siteName base 1).data (pageContentOf p).data
    (Or.inr (chunkHeader_data_split siteName base 1)) hnoph

/-- A page whose markdown contains the chunker's internal back-patch
placeholder token. -/
def placeholderPage : PageData :=
  ⟨"https://example.com/docs/a", "T", "", "docs/a",
   "x [total_chunks_placeholder] y", "", 5, 1, "t", 200⟩

/-- C9 counterexample: on a single page whose content alone exceeds a
zero token budget but happens to contain the literal token
`[total_chunks_placeholder]`, the final back-patch (crawler.py lines
1200-1203) rewrites that token inside the page's content too, so the one
produced chunk does not contain the page's full formatted content —
the claim as stated fails on such input. -/
theorem chunk_placeholder_cx :
    0 < estimate_tokens (pageContentOf placeholderPage) ∧
    (create_chunks "https://example.com" [placeholderPage] 0 "site" "t").1.length = 1 ∧
    ∀ c ∈ (create_chunks "https://example.com" [placeholderPage] 0 "site" "t").1,
      occursB (pageContentOf placeholderPage).data c.content.data = false := by
  refine ⟨by decide, by decide, by decide⟩

/-- A concrete page used to witness the chunker theorem. -/
def witnessPage : PageData :=
  ⟨"https://example.com/docs/a", "T", "", "docs/a", "hello", "", 5, 1, "t", 200⟩

/-- Witness for `single_oversized_page_one_chunk` with a zero token
budget, which the page's content alone exceeds. -/
theorem single_oversized_page_one_chunk_witness :
    (0 < estimate_tokens (pageContentOf witnessPage) ∧
      occursB "[total_chunks_placeholder]".data (pageContentOf witnessPage).data
        = false) ∧
    ((create_chunks "https://example.com" [witnessPage] 0 "site" "t").1.length = 1 ∧
      ∀ c ∈ (create_chunks "https://example.com" [witnessPage] 0 "site" "t").1,
        ∃ pre, c.content.data = pre ++ (pageContentOf witnessPage).data) :=
  ⟨⟨by decide, by decide⟩,
   single_oversized_page_one_chunk "https://example.com" "site" "t" witnessPage 0
     (by decide) (by decide)⟩

end Crawl4Dev
